import Mathlib

/-!
Verification of the ClipAnim-Creator core: flood fill, selection transform
algebra, marquee lift, pointer-down dispatch, layer compositing and history.
Definitions are shallow embeddings of the TypeScript source
(`utils/drawingUtils`, `CanvasArea`, the top-level `App` component and
`types.ts`); theorems settle the spec's testable properties against them.
-/

namespace ClipAnim

/-! ## Pixel buffers (drawingUtils)

A canvas `ImageData` buffer is 4 bytes per pixel; we model it as a flat list
of 4-channel pixels indexed by `y * width + x`, exactly the index computation
of `getPixel` / `setPixel` in the source. -/

/-- One RGBA pixel (the 4 consecutive `Uint8ClampedArray` entries that
`getPixel` reads and `setPixel` writes). -/
structure Rgba where
  r : Nat
  g : Nat
  b : Nat
  a : Nat
  deriving DecidableEq, Repr

/-- `getPixel(data, x, y, width)`: the pixel at flat index `y * width + x`.
The source does no bounds check; every call site inside `floodFill` guards
the coordinates, so the default is never read on the traced executions. -/
def getPixel (data : List Rgba) (x y width : Nat) : Rgba :=
  data.getD (y * width + x) ⟨0, 0, 0, 0⟩

/-- `setPixel(data, x, y, width, color)`: overwrite the pixel at
`y * width + x`. -/
def setPixel (data : List Rgba) (x y width : Nat) (color : Rgba) : List Rgba :=
  data.set (y * width + x) color

/-- `colorsMatch(c1, c2)`: exact 4-channel equality, no tolerance. -/
def colorsMatch (c1 c2 : Rgba) : Bool :=
  c1.r == c2.r && c1.g == c2.g && c1.b == c2.b && c1.a == c2.a

/-- The left scan of `floodFill`: starting at column `x` of row `y`, decrement
while the pixel matches `target` (stopping before column `-1`), then step back
one column to the last matching pixel.  Returns the final `currentX` after the
`currentX++` of the source. -/
def findLeftBound (data : List Rgba) (target : Rgba) (y width : Nat) : Nat → Nat
  | 0 => if colorsMatch (getPixel data 0 y width) target then 0 else 1
  | x + 1 =>
    if colorsMatch (getPixel data (x + 1) y width) target then
      findLeftBound data target y width x
    else
      x + 2

/-- The right scan of `floodFill`: from column `x` of row `y`, while in bounds
and matching `target`, fill the pixel and inspect the rows above and below,
pushing a seed onto the stack on each transition from non-matching to matching
(the `spanAbove` / `spanBelow` flags of the source).  `fuel` counts remaining
columns; the caller passes `width - x`, which makes it equivalent to the
`currentX < width` loop bound. -/
def scanRight (width height : Nat) (target fill : Rgba) (y : Nat) :
    Nat → Nat → List Rgba → List (Nat × Nat) → Bool → Bool →
    List Rgba × List (Nat × Nat)
  | 0, _, data, stack, _, _ => (data, stack)
  | fuel + 1, x, data, stack, spanAbove, spanBelow =>
    if x < width ∧ colorsMatch (getPixel data x y width) target then
      let data1 := setPixel data x y width fill
      let stepAbove : List (Nat × Nat) × Bool :=
        if 0 < y then
          let checkAbove := colorsMatch (getPixel data1 x (y - 1) width) target
          if !spanAbove && checkAbove then ((x, y - 1) :: stack, true)
          else if spanAbove && !checkAbove then (stack, false)
          else (stack, spanAbove)
        else (stack, spanAbove)
      let stepBelow : List (Nat × Nat) × Bool :=
        if y + 1 < height then
          let checkBelow := colorsMatch (getPixel data1 x (y + 1) width) target
          if !spanBelow && checkBelow then ((x, y + 1) :: stepAbove.1, true)
          else if spanBelow && !checkBelow then (stepAbove.1, false)
          else (stepAbove.1, spanBelow)
        else (stepAbove.1, spanBelow)
      scanRight width height target fill y fuel (x + 1) data1 stepBelow.1
        stepAbove.2 stepBelow.2
    else
      (data, stack)

/-- The main loop of `floodFill`: pop a seed (the source uses
`queue.push` / `queue.pop`, i.e. a LIFO stack, modelled by cons / head),
run the left scan then the filling right scan, and recurse.  `fuel` is the
iteration counter bounded by `maxIterations = width * height`; the loop also
stops on an empty stack.  The `visited` set of the source is never added to,
so its membership test is always false and is omitted. -/
def floodLoop (width height : Nat) (target fill : Rgba) :
    Nat → List (Nat × Nat) → List Rgba → List Rgba
  | 0, _, data => data
  | _ + 1, [], data => data
  | fuel + 1, (x, y) :: stack, data =>
    let lb := findLeftBound data target y width x
    let step := scanRight width height target fill y (width - lb) lb data stack
      false false
    floodLoop width height target fill fuel step.2 step.1

/-- `floodFill` of drawingUtils, over an already-decoded pixel buffer.  The
source receives the fill color as a hex string and converts it with
`hexToRgba` (alpha 255); here the converted color is passed directly.
Sample the target color at the seed; if it already equals the fill color,
return the buffer unchanged; otherwise run the scanline loop seeded at
`(startX, startY)` with iteration cap `width * height`. -/
def floodFill (data : List Rgba) (width height startX startY : Nat)
    (fill : Rgba) : List Rgba :=
  let target := getPixel data startX startY width
  if colorsMatch target fill then data
  else floodLoop width height target fill (width * height) [(startX, startY)] data

/-! ### The 8×8 containment buffer of the spec (§8) -/

/-- Whether the flat index `i` of an 8×8 buffer lies on the 1-pixel border. -/
def border8 (i : Nat) : Bool :=
  i % 8 == 0 || i % 8 == 7 || i / 8 == 0 || i / 8 == 7

/-- The 8×8 test buffer: black border, white 6×6 interior. -/
def buf8 : List Rgba :=
  (List.range 64).map fun i =>
    if border8 i then ⟨0, 0, 0, 255⟩ else ⟨255, 255, 255, 255⟩

/-- The expected result of filling `buf8` from the center with red: the 36
interior pixels become red, the border pixels are untouched. -/
def buf8Filled : List Rgba :=
  (List.range 64).map fun i =>
    if border8 i then ⟨0, 0, 0, 255⟩ else ⟨255, 0, 0, 255⟩

/-- C4: on the 8×8 buffer whose 1-pixel border is one uniform color and whose
6×6 interior is a uniform different color, `floodFill` seeded at the center
writes the fill color to exactly the 36 interior pixels and leaves every
border pixel unchanged. -/
theorem c4_floodFill_containment :
    floodFill buf8 8 8 4 4 ⟨255, 0, 0, 255⟩ = buf8Filled := by
  decide

/-- C5: if the pixel at the seed already equals the fill color (exact
4-channel match), `floodFill` leaves the buffer entirely unchanged — the
early-return branch of the source. -/
theorem c5_floodFill_idempotent (data : List Rgba) (width height sx sy : Nat)
    (fill : Rgba) (hlen : data.length = width * height)
    (hx : sx < width) (hy : sy < height)
    (h : getPixel data sx sy width = fill) :
    floodFill data width height sx sy fill = data := by
  unfold floodFill
  simp [h, colorsMatch]

/-- Witness for C5: re-filling a border pixel of `buf8` with the border color
is a no-op. -/
theorem c5_floodFill_idempotent_witness :
    floodFill buf8 8 8 0 0 ⟨0, 0, 0, 255⟩ = buf8 :=
  c5_floodFill_idempotent buf8 8 8 0 0 ⟨0, 0, 0, 255⟩ (by decide) (by decide)
    (by decide) (by decide)

/-! ## Selection transform algebra (types.ts `SelectionState`, App handlers)

JS numbers are modelled as rationals; `scaleX` / `scaleY` are constrained by
the code to `{+1, -1}` but the field type admits any number, as in the source.
-/

/-- `SelectionState` from types.ts: bounding box in canvas pixel space, the
encoded bitmap (`dataUrl`), rotation in degrees, and the two flip signs. -/
structure SelectionState where
  x : ℚ
  y : ℚ
  width : ℚ
  height : ℚ
  dataUrl : String
  rotation : ℚ
  scaleX : ℚ
  scaleY : ℚ
  deriving DecidableEq, Repr

/-- Truncation toward zero: the integer quotient underlying the JS `%`
remainder operator. -/
def qtrunc (q : ℚ) : ℤ := if 0 ≤ q then ⌊q⌋ else ⌈q⌉

/-- The JS `%` operator on numbers: `a - b * trunc(a / b)`, a remainder that
takes the sign of the dividend. -/
def jsMod (a b : ℚ) : ℚ := a - b * (qtrunc (a / b) : ℚ)

theorem jsMod_of_lt (a b : ℚ) (h0 : 0 ≤ a) (hb : 0 < b) (hab : a < b) :
    jsMod a b = a := by
  have hq0 : (0 : ℚ) ≤ a / b := div_nonneg h0 hb.le
  have hq1 : a / b < 1 := (div_lt_one hb).mpr hab
  have hfl : ⌊a / b⌋ = 0 := Int.floor_eq_zero_iff.mpr (Set.mem_Ico.mpr ⟨hq0, hq1⟩)
  rw [jsMod, qtrunc, if_pos hq0, hfl]
  push_cast
  ring

theorem jsMod_of_ge (a b : ℚ) (hb : 0 < b) (h1 : b ≤ a) (h2 : a < 2 * b) :
    jsMod a b = a - b := by
  have h0 : (0 : ℚ) ≤ a := le_trans hb.le h1
  have hq0 : (0 : ℚ) ≤ a / b := div_nonneg h0 hb.le
  have hfl : ⌊a / b⌋ = 1 := by
    rw [Int.floor_eq_iff]
    constructor
    · push_cast
      exact (one_le_div hb).mpr h1
    · push_cast
      rw [div_lt_iff₀ hb]
      linarith
  rw [jsMod, qtrunc, if_pos hq0, hfl]
  push_cast
  ring

/-- `handleRotate` (App): add 90 degrees, normalized by the JS `% 360`; every
other field is spread unchanged. -/
def handleRotate (s : SelectionState) : SelectionState :=
  { s with rotation := jsMod (s.rotation + 90) 360 }

/-- `handleFlipHorizontal` (App): toggle the sign of `scaleX` only. -/
def handleFlipHorizontal (s : SelectionState) : SelectionState :=
  { s with scaleX := s.scaleX * -1 }

/-- `handleFlipVertical` (App): toggle the sign of `scaleY` only. -/
def handleFlipVertical (s : SelectionState) : SelectionState :=
  { s with scaleY := s.scaleY * -1 }

/-- Four +90 rotations with JS `% 360` normalization return to the start for
any start angle in `[0, 360)`. -/
theorem jsMod_rotate_four (r : ℚ) (h0 : 0 ≤ r) (h1 : r < 360) :
    jsMod (jsMod (jsMod (jsMod (r + 90) 360 + 90) 360 + 90) 360 + 90) 360 = r := by
  rcases lt_or_le r 90 with hA | hA
  · have e1 : jsMod (r + 90) 360 = r + 90 :=
      jsMod_of_lt _ _ (by linarith) (by norm_num) (by linarith)
    have e2 : jsMod (r + 90 + 90) 360 = r + 90 + 90 :=
      jsMod_of_lt _ _ (by linarith) (by norm_num) (by linarith)
    have e3 : jsMod (r + 90 + 90 + 90) 360 = r + 90 + 90 + 90 :=
      jsMod_of_lt _ _ (by linarith) (by norm_num) (by linarith)
    have e4 : jsMod (r + 90 + 90 + 90 + 90) 360 = r + 90 + 90 + 90 + 90 - 360 :=
      jsMod_of_ge _ _ (by norm_num) (by linarith) (by linarith)
    rw [e1, e2, e3, e4]
    ring
  rcases lt_or_le r 180 with hB | hB
  · have e1 : jsMod (r + 90) 360 = r + 90 :=
      jsMod_of_lt _ _ (by linarith) (by norm_num) (by linarith)
    have e2 : jsMod (r + 90 + 90) 360 = r + 90 + 90 :=
      jsMod_of_lt _ _ (by linarith) (by norm_num) (by linarith)
    have e3 : jsMod (r + 90 + 90 + 90) 360 = r + 90 + 90 + 90 - 360 :=
      jsMod_of_ge _ _ (by norm_num) (by linarith) (by linarith)
    have e4 : jsMod (r + 90 + 90 + 90 - 360 + 90) 360 = r + 90 + 90 + 90 - 360 + 90 :=
      jsMod_of_lt _ _ (by linarith) (by norm_num) (by linarith)
    rw [e1, e2, e3, e4]
    ring
  rcases lt_or_le r 270 with hC | hC
  · have e1 : jsMod (r + 90) 360 = r + 90 :=
      jsMod_of_lt _ _ (by linarith) (by norm_num) (by linarith)
    have e2 : jsMod (r + 90 + 90) 360 = r + 90 + 90 - 360 :=
      jsMod_of_ge _ _ (by norm_num) (by linarith) (by linarith)
    have e3 : jsMod (r + 90 + 90 - 360 + 90) 360 = r + 90 + 90 - 360 + 90 :=
      jsMod_of_lt _ _ (by linarith) (by norm_num) (by linarith)
    have e4 : jsMod (r + 90 + 90 - 360 + 90 + 90) 360 = r + 90 + 90 - 360 + 90 + 90 :=
      jsMod_of_lt _ _ (by linarith) (by norm_num) (by linarith)
    rw [e1, e2, e3, e4]
    ring
  · have e1 : jsMod (r + 90) 360 = r + 90 - 360 :=
      jsMod_of_ge _ _ (by norm_num) (by linarith) (by linarith)
    have e2 : jsMod (r + 90 - 360 + 90) 360 = r + 90 - 360 + 90 :=
      jsMod_of_lt _ _ (by linarith) (by norm_num) (by linarith)
    have e3 : jsMod (r + 90 - 360 + 90 + 90) 360 = r + 90 - 360 + 90 + 90 :=
      jsMod_of_lt _ _ (by linarith) (by norm_num) (by linarith)
    have e4 : jsMod (r + 90 - 360 + 90 + 90 + 90) 360 = r + 90 - 360 + 90 + 90 + 90 :=
      jsMod_of_lt _ _ (by linarith) (by norm_num) (by linarith)
    rw [e1, e2, e3, e4]
    ring

/-- C6: `handleRotate` adds exactly 90 degrees normalized by the JS `% 360`
and changes no other field, and — for any active selection, whose rotation
lies in `[0, 360)` — four rotations in a row restore the original selection. -/
theorem c6_rotate_four_identity (s : SelectionState)
    (h0 : 0 ≤ s.rotation) (h1 : s.rotation < 360) :
    (handleRotate s).rotation = jsMod (s.rotation + 90) 360 ∧
    (handleRotate s).x = s.x ∧ (handleRotate s).y = s.y ∧
    (handleRotate s).width = s.width ∧ (handleRotate s).height = s.height ∧
    (handleRotate s).dataUrl = s.dataUrl ∧
    (handleRotate s).scaleX = s.scaleX ∧ (handleRotate s).scaleY = s.scaleY ∧
    handleRotate (handleRotate (handleRotate (handleRotate s))) = s := by
  refine ⟨rfl, rfl, rfl, rfl, rfl, rfl, rfl, rfl, ?_⟩
  obtain ⟨x, y, w, h, d, r, sx, sy⟩ := s
  simp only [handleRotate, SelectionState.mk.injEq, and_true, true_and]
  exact jsMod_rotate_four r h0 h1

/-- A sample selection used by the concrete witnesses. -/
def sampleSel : SelectionState := ⟨10, 20, 30, 40, "sel", 0, 1, 1⟩

/-- Witness for C6 at a concrete selection with rotation 0. -/
theorem c6_rotate_four_identity_witness :
    handleRotate (handleRotate (handleRotate (handleRotate sampleSel))) = sampleSel :=
  (c6_rotate_four_identity sampleSel (by norm_num [sampleSel])
    (by norm_num [sampleSel])).2.2.2.2.2.2.2.2

/-- C7: each flip toggles only the sign of its own scale factor, leaves every
other field (position, size, rotation, the other scale) unchanged, and two
flips on the same axis are the identity. -/
theorem c7_double_flip_identity (s : SelectionState) :
    handleFlipHorizontal (handleFlipHorizontal s) = s ∧
    handleFlipVertical (handleFlipVertical s) = s ∧
    (handleFlipHorizontal s).scaleX = -s.scaleX ∧
    (handleFlipHorizontal s).x = s.x ∧ (handleFlipHorizontal s).y = s.y ∧
    (handleFlipHorizontal s).width = s.width ∧
    (handleFlipHorizontal s).height = s.height ∧
    (handleFlipHorizontal s).rotation = s.rotation ∧
    (handleFlipHorizontal s).scaleY = s.scaleY ∧
    (handleFlipHorizontal s).dataUrl = s.dataUrl ∧
    (handleFlipVertical s).scaleY = -s.scaleY ∧
    (handleFlipVertical s).x = s.x ∧ (handleFlipVertical s).y = s.y ∧
    (handleFlipVertical s).width = s.width ∧
    (handleFlipVertical s).height = s.height ∧
    (handleFlipVertical s).rotation = s.rotation ∧
    (handleFlipVertical s).scaleX = s.scaleX ∧
    (handleFlipVertical s).dataUrl = s.dataUrl := by
  obtain ⟨x, y, w, h, d, r, sx, sy⟩ := s
  refine ⟨?_, ?_, ?_, rfl, rfl, rfl, rfl, rfl, rfl, rfl, ?_, rfl, rfl, rfl,
    rfl, rfl, rfl, rfl⟩ <;>
    simp [handleFlipHorizontal, handleFlipVertical]

/-! ## Resize (CanvasArea `handlePointerMove`, resize branch)

The pointer delta is first rotated into the selection's local frame
(`ldx = dx·cos(-rot) - dy·sin(-rot)`, `ldy = dx·sin(-rot) + dy·cos(-rot)`);
the claims below quantify over that local-frame delta `(ldx, ldy)` directly.
-/

/-- The four corner resize handles (`resize-tl` … `resize-br`). -/
inductive Handle
  | tl | tr | bl | br
  deriving DecidableEq, Repr

/-- Handle-identity remapping for flipped selections: a negative `scaleX`
swaps left and right handles, a negative `scaleY` swaps top and bottom
handles, in that order (the two `if` blocks of the source). -/
def remapHandle (scaleX scaleY : ℚ) (h : Handle) : Handle :=
  let h1 := if scaleX < 0 then
    match h with
    | Handle.tl => Handle.tr
    | Handle.tr => Handle.tl
    | Handle.bl => Handle.br
    | Handle.br => Handle.bl
  else h
  if scaleY < 0 then
    match h1 with
    | Handle.tl => Handle.bl
    | Handle.tr => Handle.br
    | Handle.bl => Handle.tl
    | Handle.br => Handle.tr
  else h1

/-- The resize arithmetic for an (already remapped) handle and a local-frame
delta: bottom/right handles grow width/height by the delta, top/left handles
shrink them and move the position by the delta; then each axis is clamped to
the 5-pixel minimum, and when the clamp fires on a left (resp. top) handle
the position is shifted back by the clamped difference
(`if (handle.includes('l')) newX -= diff`, likewise for `'t'` and `newY`). -/
def applyResize (handle : Handle) (init : SelectionState) (ldx ldy : ℚ) :
    SelectionState :=
  let newW := match handle with
    | Handle.br | Handle.tr => init.width + ldx
    | Handle.bl | Handle.tl => init.width - ldx
  let newH := match handle with
    | Handle.br | Handle.bl => init.height + ldy
    | Handle.tr | Handle.tl => init.height - ldy
  let newX := match handle with
    | Handle.br | Handle.tr => init.x
    | Handle.bl | Handle.tl => init.x + ldx
  let newY := match handle with
    | Handle.br | Handle.bl => init.y
    | Handle.tr | Handle.tl => init.y + ldy
  { init with
    x := if newW < 5 ∧ (handle = Handle.tl ∨ handle = Handle.bl) then
           newX - (5 - newW) else newX
    y := if newH < 5 ∧ (handle = Handle.tl ∨ handle = Handle.tr) then
           newY - (5 - newH) else newY
    width := if newW < 5 then 5 else newW
    height := if newH < 5 then 5 else newH }

/-- One full resize-handle drag step: remap the grabbed handle for the
current flips, then apply the local-frame delta with min-size clamping. -/
def resizeStep (handle : Handle) (init : SelectionState) (ldx ldy : ℚ) :
    SelectionState :=
  applyResize (remapHandle init.scaleX init.scaleY handle) init ldx ldy

/-- C2: every resize-handle drag yields width and height that are at least 5,
and the edge opposite the dragged handle (in the selection's local frame,
after flip remapping) has the same coordinate after the resize as before —
whether or not the 5-pixel clamp fires. -/
theorem c2_resize_min_size_opposite_edge (handle h : Handle)
    (init : SelectionState) (ldx ldy : ℚ)
    (hh : remapHandle init.scaleX init.scaleY handle = h) :
    5 ≤ (resizeStep handle init ldx ldy).width ∧
    5 ≤ (resizeStep handle init ldx ldy).height ∧
    ((h = Handle.tl ∨ h = Handle.bl) →
      (resizeStep handle init ldx ldy).x + (resizeStep handle init ldx ldy).width
        = init.x + init.width) ∧
    ((h = Handle.tr ∨ h = Handle.br) →
      (resizeStep handle init ldx ldy).x = init.x) ∧
    ((h = Handle.tl ∨ h = Handle.tr) →
      (resizeStep handle init ldx ldy).y + (resizeStep handle init ldx ldy).height
        = init.y + init.height) ∧
    ((h = Handle.bl ∨ h = Handle.br) →
      (resizeStep handle init ldx ldy).y = init.y) := by
  unfold resizeStep
  rw [hh]
  cases h <;>
    refine ⟨?_, ?_, fun hc => ?_, fun hc => ?_, fun hc => ?_, fun hc => ?_⟩ <;>
    simp only [applyResize] <;>
    (try rcases hc with hc | hc) <;>
    (try simp_all) <;>
    (try split_ifs) <;>
    linarith

/-- Witness for C2: a top-left-handle drag on `sampleSel` large enough to
clamp both axes keeps the bottom-right corner fixed and clamps to 5×5. -/
theorem c2_resize_min_size_opposite_edge_witness :
    5 ≤ (resizeStep Handle.tl sampleSel 100 100).width ∧
    (resizeStep Handle.tl sampleSel 100 100).x
        + (resizeStep Handle.tl sampleSel 100 100).width
      = sampleSel.x + sampleSel.width := by
  have hmain := c2_resize_min_size_opposite_edge Handle.tl Handle.tl sampleSel
    100 100 (by decide)
  exact ⟨hmain.1, hmain.2.2.1 (Or.inl rfl)⟩

/-! ## Marquee lift (CanvasArea `handlePointerUp`, select/create branch) -/

/-- Canvas `getImageData(l, t, w, h)` over the flat buffer: the `w*h` pixels
of the rectangle, row-major, read through `getPixel`. -/
def getImageData (data : List Rgba) (width l t w h : Nat) : List Rgba :=
  (List.range (w * h)).map fun i => getPixel data (l + i % w) (t + i / w) width

/-- Canvas `clearRect(l, t, w, h)` over the flat buffer: every pixel of the
rectangle becomes transparent black, every other pixel is untouched. -/
def clearRect (data : List Rgba) (width l t w h : Nat) : List Rgba :=
  (List.range data.length).map fun i =>
    if l ≤ i % width ∧ i % width < l + w ∧ t ≤ i / width ∧ i / width < t + h
    then ⟨0, 0, 0, 0⟩ else data.getD i ⟨0, 0, 0, 0⟩

/-- The argument record of `onSelectionCreate` at marquee release, with the
`dataUrl` string replaced by the pixel content of the temp canvas that the
string encodes. -/
structure LiftedSelection where
  x : ℚ
  y : ℚ
  width : ℚ
  height : ℚ
  bitmap : List Rgba
  rotation : ℚ
  scaleX : ℚ
  scaleY : ℚ
  deriving DecidableEq, Repr

/-- Result of releasing a marquee drag: the created selection, if any, and
the active layer's buffer afterwards. -/
structure MarqueeResult where
  created : Option LiftedSelection
  layerData : List Rgba
  deriving DecidableEq, Repr

/-- The `tool === 'select'`, `selectionMode === 'create'` branch of
`handlePointerUp`: width и height are `|x - startX|`, `|y - startY|`, the
corner is the componentwise min; if both dimensions exceed 5, extract that
rectangle from the active layer (`getImageData` into a temp canvas), clear
it from the source (`clearRect` followed by `saveCanvas`) and create a
selection with rotation 0 and both scales 1; otherwise create nothing and
leave the layer untouched.  The canvas calls coerce their fractional number
arguments to integers (truncation toward zero, `qtrunc`). -/
def marqueeRelease (data : List Rgba) (width : Nat) (sx sy x y : ℚ) :
    MarqueeResult :=
  let w := |x - sx|
  let h := |y - sy|
  let left := min x sx
  let top := min y sy
  if 5 < w ∧ 5 < h then
    let li := (qtrunc left).toNat
    let ti := (qtrunc top).toNat
    let wi := (qtrunc w).toNat
    let hi := (qtrunc h).toNat
    { created := some ⟨left, top, w, h, getImageData data width li ti wi hi, 0, 1, 1⟩
      layerData := clearRect data width li ti wi hi }
  else
    { created := none, layerData := data }

/-- The extracted rectangle holds exactly the source pixels: entry `(i, j)`
of the `getImageData` result is source pixel `(l + i, t + j)`. -/
theorem getImageData_pixel (data : List Rgba) (width l t w h i j : Nat)
    (hi : i < w) (hj : j < h) :
    (getImageData data width l t w h).getD (j * w + i) ⟨0, 0, 0, 0⟩
      = getPixel data (l + i) (t + j) width := by
  have hw : 0 < w := Nat.pos_of_ne_zero (by omega)
  have hlt : j * w + i < w * h := by
    calc j * w + i < j * w + w := by omega
    _ = (j + 1) * w := by ring
    _ ≤ h * w := Nat.mul_le_mul_right w hj
    _ = w * h := Nat.mul_comm h w
  unfold getImageData
  rw [List.getD_eq_getElem _ _ (by simpa using hlt), List.getElem_map,
    List.getElem_range]
  have h1 : (j * w + i) % w = i := by
    rw [Nat.add_comm, Nat.add_mul_mod_self_right, Nat.mod_eq_of_lt hi]
  have h2 : (j * w + i) / w = j := by
    rw [Nat.mul_comm j w, Nat.mul_add_div hw, Nat.div_eq_of_lt hi, Nat.add_zero]
  rw [h1, h2]

/-- `clearRect` zeroes exactly the pixels of the rectangle and keeps every
other pixel. -/
theorem clearRect_pixel (data : List Rgba) (width height l t w h px py : Nat)
    (hlen : data.length = width * height) (hpx : px < width) (hpy : py < height) :
    getPixel (clearRect data width l t w h) px py width
      = if l ≤ px ∧ px < l + w ∧ t ≤ py ∧ py < t + h then ⟨0, 0, 0, 0⟩
        else getPixel data px py width := by
  have hidx : py * width + px < data.length := by
    rw [hlen]
    calc py * width + px < py * width + width := by omega
    _ = (py + 1) * width := by ring
    _ ≤ height * width := Nat.mul_le_mul_right width hpy
    _ = width * height := Nat.mul_comm height width
  have h1 : (py * width + px) % width = px := by
    rw [Nat.add_comm, Nat.add_mul_mod_self_right, Nat.mod_eq_of_lt hpx]
  have h2 : (py * width + px) / width = py := by
    rw [Nat.mul_comm py width, Nat.mul_add_div (by omega), Nat.div_eq_of_lt hpx,
      Nat.add_zero]
  unfold clearRect getPixel
  rw [List.getD_eq_getElem _ _ (by simpa using hidx), List.getElem_map,
    List.getElem_range, h1, h2]

/-- C1: releasing a marquee drag whose width and height both exceed 5 creates
a selection at the dragged rectangle (rotation 0, scales 1) whose bitmap is
exactly the rectangle's pixels of the active layer, and clears exactly that
rectangle from the layer at that moment; a drag failing the size test creates
no selection and leaves the layer bitmap unchanged. -/
theorem c1_marquee_lift_extracts_and_clears (data : List Rgba)
    (width height : Nat) (sx sy x y : ℚ)
    (hlen : data.length = width * height) :
    (¬(5 < |x - sx| ∧ 5 < |y - sy|) →
      (marqueeRelease data width sx sy x y).created = none ∧
      (marqueeRelease data width sx sy x y).layerData = data) ∧
    ((5 < |x - sx| ∧ 5 < |y - sy|) →
      ∃ sel, (marqueeRelease data width sx sy x y).created = some sel ∧
        sel.rotation = 0 ∧ sel.scaleX = 1 ∧ sel.scaleY = 1 ∧
        sel.x = min x sx ∧ sel.y = min y sy ∧
        sel.width = |x - sx| ∧ sel.height = |y - sy| ∧
        (∀ i j, i < (qtrunc |x - sx|).toNat → j < (qtrunc |y - sy|).toNat →
          sel.bitmap.getD (j * (qtrunc |x - sx|).toNat + i) ⟨0, 0, 0, 0⟩
            = getPixel data ((qtrunc (min x sx)).toNat + i)
                ((qtrunc (min y sy)).toNat + j) width) ∧
        (∀ px py, px < width → py < height →
          getPixel (marqueeRelease data width sx sy x y).layerData px py width
            = if (qtrunc (min x sx)).toNat ≤ px ∧
                 px < (qtrunc (min x sx)).toNat + (qtrunc |x - sx|).toNat ∧
                 (qtrunc (min y sy)).toNat ≤ py ∧
                 py < (qtrunc (min y sy)).toNat + (qtrunc |y - sy|).toNat
              then ⟨0, 0, 0, 0⟩
              else getPixel data px py width)) := by
  have hcases : marqueeRelease data width sx sy x y =
      if 5 < |x - sx| ∧ 5 < |y - sy| then
        { created := some ⟨min x sx, min y sy, |x - sx|, |y - sy|,
            getImageData data width (qtrunc (min x sx)).toNat
              (qtrunc (min y sy)).toNat (qtrunc |x - sx|).toNat
              (qtrunc |y - sy|).toNat, 0, 1, 1⟩
          layerData := clearRect data width (qtrunc (min x sx)).toNat
            (qtrunc (min y sy)).toNat (qtrunc |x - sx|).toNat
            (qtrunc |y - sy|).toNat }
      else { created := none, layerData := data } := rfl
  constructor
  · intro hno
    rw [hcases, if_neg hno]
    exact ⟨rfl, rfl⟩
  · intro hyes
    refine ⟨⟨min x sx, min y sy, |x - sx|, |y - sy|,
      getImageData data width (qtrunc (min x sx)).toNat (qtrunc (min y sy)).toNat
        (qtrunc |x - sx|).toNat (qtrunc |y - sy|).toNat, 0, 1, 1⟩, ?_, rfl, rfl,
      rfl, rfl, rfl, rfl, rfl, ?_, ?_⟩
    · rw [hcases, if_pos hyes]
    · intro i j hi hj
      exact getImageData_pixel data width _ _ _ _ i j hi hj
    · intro px py hpx hpy
      rw [hcases, if_pos hyes]
      exact clearRect_pixel data width height _ _ _ _ px py hlen hpx hpy

/-- A 7×7 test buffer with pairwise distinct pixels, for the C1 witness. -/
def buf7 : List Rgba := (List.range 49).map fun i => ⟨i, 0, 0, 255⟩

/-- Witness for C1: dragging from `(0, 0)` to `(6.5, 6.5)` on the 7×7 buffer
lifts the 6×6 corner rectangle and clears it. -/
theorem c1_marquee_lift_extracts_and_clears_witness :
    ∃ sel, (marqueeRelease buf7 7 0 0 (13 / 2) (13 / 2)).created = some sel ∧
      sel.rotation = 0 ∧ sel.scaleX = 1 ∧ sel.scaleY = 1 ∧
      sel.x = min (13 / 2 : ℚ) 0 ∧ sel.y = min (13 / 2 : ℚ) 0 ∧
      sel.width = |(13 / 2 : ℚ) - 0| ∧ sel.height = |(13 / 2 : ℚ) - 0| ∧
      (∀ i j, i < (qtrunc |(13 / 2 : ℚ) - 0|).toNat →
        j < (qtrunc |(13 / 2 : ℚ) - 0|).toNat →
        sel.bitmap.getD (j * (qtrunc |(13 / 2 : ℚ) - 0|).toNat + i) ⟨0, 0, 0, 0⟩
          = getPixel buf7 ((qtrunc (min (13 / 2 : ℚ) 0)).toNat + i)
              ((qtrunc (min (13 / 2 : ℚ) 0)).toNat + j) 7) ∧
      (∀ px py, px < 7 → py < 7 →
        getPixel (marqueeRelease buf7 7 0 0 (13 / 2) (13 / 2)).layerData px py 7
          = if (qtrunc (min (13 / 2 : ℚ) 0)).toNat ≤ px ∧
               px < (qtrunc (min (13 / 2 : ℚ) 0)).toNat
                    + (qtrunc |(13 / 2 : ℚ) - 0|).toNat ∧
               (qtrunc (min (13 / 2 : ℚ) 0)).toNat ≤ py ∧
               py < (qtrunc (min (13 / 2 : ℚ) 0)).toNat
                    + (qtrunc |(13 / 2 : ℚ) - 0|).toNat
            then ⟨0, 0, 0, 0⟩
            else getPixel buf7 px py 7) :=
  (c1_marquee_lift_extracts_and_clears buf7 7 7 0 0 (13 / 2) (13 / 2)
    (by decide)).2 ⟨by rw [abs_of_nonneg] <;> norm_num,
      by rw [abs_of_nonneg] <;> norm_num⟩

/-! ## Pointer-down dispatch (CanvasArea `handlePointerDown`)

The single-pointer, primary-button path after the gesture branches, i.e. the
tool dispatch.  Side effects on the document (layer bitmaps, the floating
selection) are recorded as explicit effect values. -/

/-- The tool enumeration of types.ts (the second CanvasArea revision adds a
`text` tool whose branch sits next to the `select` branch; the claims below
concern the five types.ts tools). -/
inductive ToolType
  | pen | eraser | fill | select | shape
  deriving DecidableEq, Repr

/-- `Layer` from types.ts. `createDefaultLayer` initializes only the first
four fields; `opacity` and `blendMode` are read by the compositor. -/
structure Layer where
  id : String
  name : String
  isVisible : Bool
  isLocked : Bool
  opacity : ℚ
  blendMode : String
  deriving DecidableEq, Repr

/-- The selection-interaction mode ref (`selectionMode.current`). -/
inductive SelectionMode
  | create | move | resizeTL | resizeTR | resizeBL | resizeBR
  deriving DecidableEq, Repr

/-- The mutable refs of CanvasArea touched by a pointer-down, plus the
App-owned floating selection. -/
structure PointerDownState where
  selection : Option SelectionState
  selectionMode : Option SelectionMode
  dragStart : Option (ℚ × ℚ)
  drawStart : Option (ℚ × ℚ)
  isCreatingSelection : Bool
  isDrawing : Bool
  snapshotTaken : Bool
  deriving DecidableEq, Repr

/-- A document mutation triggered synchronously by a pointer-down:
`commitSelection` is `onSelectionCommit()` (composite the floating selection
into the active layer's bitmap and clear it), `fillAt` is the immediate
`floodFill` + `saveCanvas` of the fill tool. -/
inductive DownEffect
  | commitSelection
  | fillAt (x y : ℤ) (color : String)
  deriving DecidableEq, Repr

/-- The guard `activeLayer?.isLocked || !activeLayer?.isVisible`: true when
the active layer is locked, invisible, or does not exist (optional chaining
on a missing layer yields `undefined`, so `!activeLayer?.isVisible` is
true). -/
def layerBlocked : Option Layer → Bool
  | none => true
  | some l => l.isLocked || !l.isVisible

/-- The tool dispatch of `handlePointerDown` for a single primary-button
pointer: the `select` branch (commit any pending selection, then start a
marquee) runs BEFORE the locked/invisible guard; only the drawing branches
(fill, shape, pen, eraser) sit behind it.  Returns the new ref state and the
list of document mutations performed. -/
def handlePointerDownDispatch (tool : ToolType) (activeLayer : Option Layer)
    (st : PointerDownState) (x y : ℚ) (color : String) :
    PointerDownState × List DownEffect :=
  if tool = ToolType.select then
    ({ st with
        selection := none
        selectionMode := some SelectionMode.create
        dragStart := some (x, y)
        isCreatingSelection := true
        isDrawing := false },
      if st.selection.isSome then [DownEffect.commitSelection] else [])
  else if layerBlocked activeLayer then
    ({ st with isDrawing := false }, [])
  else if tool = ToolType.fill then
    ({ st with isDrawing := false, drawStart := some (x, y) },
      [DownEffect.fillAt ⌊x⌋ ⌊y⌋ color])
  else if tool = ToolType.shape then
    ({ st with isDrawing := true, drawStart := some (x, y), snapshotTaken := true },
      [])
  else
    ({ st with isDrawing := true, drawStart := some (x, y) }, [])

/-- A pointer-down state with a pending floating selection. -/
def downStWithSelection : PointerDownState :=
  ⟨some sampleSel, none, none, none, false, false, false⟩

/-- A locked but visible layer. -/
def lockedLayer : Layer := ⟨"1", "Layer 1", true, true, 1, "source-over"⟩

/-- Counterexample to C3: a pointer-down with the select tool on a locked
active layer is NOT rejected — it commits the pending floating selection
into the locked layer (a bitmap mutation) and clears the Selection state,
because the `select` branch precedes the locked/invisible guard. -/
theorem c3_counterexample_select_on_locked_layer :
    lockedLayer.isLocked = true ∧
    (handlePointerDownDispatch ToolType.select (some lockedLayer)
        downStWithSelection 3 4 "c").2 = [DownEffect.commitSelection] ∧
    (handlePointerDownDispatch ToolType.select (some lockedLayer)
        downStWithSelection 3 4 "c").1.selection ≠ downStWithSelection.selection := by
  refine ⟨rfl, rfl, ?_⟩
  intro h
  simp [handlePointerDownDispatch, downStWithSelection] at h

/-- C3 (amended): for the drawing-type pointer-down operations (pen, eraser,
fill, shape), a locked, invisible, or missing active layer causes a silent
rejection: no document mutation is performed, the floating selection is
untouched, and the stroke is not started.  (The select branch is dispatched
before this guard; see the counterexample.) -/
theorem c3_drawing_tools_rejected_on_blocked_layer (tool : ToolType)
    (activeLayer : Option Layer) (st : PointerDownState) (x y : ℚ)
    (color : String)
    (htool : tool = ToolType.pen ∨ tool = ToolType.eraser ∨
      tool = ToolType.fill ∨ tool = ToolType.shape)
    (hblocked : layerBlocked activeLayer = true) :
    (handlePointerDownDispatch tool activeLayer st x y color).2 = [] ∧
    (handlePointerDownDispatch tool activeLayer st x y color).1.selection
      = st.selection ∧
    (handlePointerDownDispatch tool activeLayer st x y color).1.isDrawing
      = false := by
  rcases htool with h | h | h | h <;> subst h <;>
    simp [handlePointerDownDispatch, hblocked]

/-- Witness for C3 (amended): a pen pointer-down on the locked layer is a
no-op for the document. -/
theorem c3_drawing_tools_rejected_on_blocked_layer_witness :
    (handlePointerDownDispatch ToolType.pen (some lockedLayer)
        downStWithSelection 3 4 "c").2 = [] ∧
    (handlePointerDownDispatch ToolType.pen (some lockedLayer)
        downStWithSelection 3 4 "c").1.selection
      = downStWithSelection.selection ∧
    (handlePointerDownDispatch ToolType.pen (some lockedLayer)
        downStWithSelection 3 4 "c").1.isDrawing = false :=
  c3_drawing_tools_rejected_on_blocked_layer ToolType.pen (some lockedLayer)
    downStWithSelection 3 4 "c" (Or.inl rfl) (by decide)

/-! ## History (App `updateFramesWithHistory` / `undo`) -/

/-- The App history state: the live frame list, the snapshot list, the index
of the current snapshot (an `Int`, initialized to `-1` before a project is
loaded), and the current frame index.  `β` is the frame type. -/
structure HistoryState (β : Type) where
  frames : List β
  history : List (List β)
  historyIndex : Int
  currentFrameIndex : Nat
  deriving DecidableEq, Repr

/-- `updateFramesWithHistory` (App): set the live frames, truncate the redo
branch (`history.slice(0, historyIndex + 1)`), append the new frame list,
drop the oldest snapshot when the count exceeds 20 (`shift()`), and point the
index at the last entry. -/
def updateFramesWithHistory {β : Type} (newFrames : List β)
    (s : HistoryState β) : HistoryState β :=
  let newHistory := s.history.take (s.historyIndex + 1).toNat ++ [newFrames]
  let newHistory2 :=
    if 20 < newHistory.length then newHistory.drop 1 else newHistory
  { frames := newFrames
    history := newHistory2
    historyIndex := (newHistory2.length : Int) - 1
    currentFrameIndex := s.currentFrameIndex }

/-- `undo` (App): when the index is positive, step it back, restore that
snapshot as the live frames, and clamp the current frame index
(`Math.max(0, newFrames.length - 1)` is natural subtraction here). -/
def undo {β : Type} (s : HistoryState β) : HistoryState β :=
  if 0 < s.historyIndex then
    let newFrames := s.history.getD (s.historyIndex - 1).toNat []
    { frames := newFrames
      history := s.history
      historyIndex := s.historyIndex - 1
      currentFrameIndex :=
        if newFrames.length ≤ s.currentFrameIndex then newFrames.length - 1
        else s.currentFrameIndex }
  else s

/-- The freshly created project: one frame, one history snapshot, index 0.
Frames are numbered for the concrete run below. -/
def histInit : HistoryState Nat := ⟨[0], [[0]], 0, 0⟩

/-- `histInit` after 25 sequential edits (edit `k` sets the frame list to
`[k]`). -/
def after25Edits : HistoryState Nat :=
  (List.range 25).foldl (fun s k => updateFramesWithHistory [k + 1] s) histInit

set_option maxRecDepth 8000 in
/-- C8: each edit truncates the redo branch, appends the new snapshot (which
becomes both the live frames and the last history entry) and keeps the
history at most 20 entries long; concretely, after 25 sequential edits
exactly 20 snapshots remain, and 19 undos land on the oldest retained
snapshot (edit 6), not the true original `[0]`. -/
theorem c8_history_bounded_ring {β : Type} (s : HistoryState β)
    (newFrames : List β) (hlen : s.history.length ≤ 20) :
    ((updateFramesWithHistory newFrames s).history.length ≤ 20 ∧
      (updateFramesWithHistory newFrames s).frames = newFrames ∧
      (updateFramesWithHistory newFrames s).history.getLast? = some newFrames) ∧
    (after25Edits.history.length = 20 ∧
      (undo^[19] after25Edits).frames = [6] ∧
      (undo^[19] after25Edits).historyIndex = 0 ∧
      ([6] : List Nat) ≠ [0]) := by
  constructor
  · have htake : (s.history.take (s.historyIndex + 1).toNat).length ≤ 20 := by
      rw [List.length_take]
      omega
    refine ⟨?_, rfl, ?_⟩
    · show (if 20 < _ then _ else _ : List (List β)).length ≤ 20
      split_ifs with hgt
      · rw [List.length_drop]
        simp only [List.length_append, List.length_singleton] at *
        omega
      · simp only [List.length_append, List.length_singleton] at hgt ⊢
        omega
    · show (if 20 < _ then _ else _ : List (List β)).getLast? = some newFrames
      split_ifs with hgt
      · have hge : 1 ≤ (s.history.take (s.historyIndex + 1).toNat).length := by
          simp only [List.length_append, List.length_singleton] at hgt
          omega
        rw [List.drop_append_of_le_length hge, List.getLast?_concat]
      · exact List.getLast?_concat _
  · refine ⟨by decide, by decide, by decide, by decide⟩

set_option maxRecDepth 8000 in
/-- Witness for C8 at a concrete full history. -/
theorem c8_history_bounded_ring_witness :
    (updateFramesWithHistory [26] after25Edits).history.length ≤ 20 ∧
    (updateFramesWithHistory [26] after25Edits).frames = [26] ∧
    (updateFramesWithHistory [26] after25Edits).history.getLast? = some [26] :=
  (c8_history_bounded_ring after25Edits [26] (by decide)).1

/-! ## Compositor (drawingUtils `compositeLayers`)

The layer loop: for each layer in list order (bottom to top), if it is
visible and the frame has a bitmap for its id, decode the bitmap and draw it
with the layer's opacity and blend mode; a decode failure (`img.onerror`)
resolves without drawing, skipping just that layer.  Decoding is an
environment parameter `decode : String → Option α` (`none` = load failure);
the draws performed over the background are returned in order as
`(image, opacity, blendMode)` triples. -/

/-- The `for (const layer of layers)` loop of `compositeLayers`.  A frame's
layer map is `frameLayers : String → Option String` (`none` models a missing
id; an empty dataUrl string is falsy in the source and is likewise modelled
as `none`). -/
def compositeLayerDraws {α : Type} (decode : String → Option α)
    (frameLayers : String → Option String) : List Layer → List (α × ℚ × String)
  | [] => []
  | layer :: rest =>
    let tail := compositeLayerDraws decode frameLayers rest
    if layer.isVisible then
      match frameLayers layer.id with
      | none => tail
      | some url =>
        match decode url with
        | none => tail
        | some img => (img, layer.opacity, layer.blendMode) :: tail
    else tail

/-- C9: `compositeLayers` draws exactly the layers that are visible, present
in the frame, and decodable — in list order (bottom to top), each with its
own opacity and blend mode — and a failing layer is skipped without aborting
the composite: the result is the same as if that layer were filtered out. -/
theorem c9_composite_skips_and_orders {α : Type} (decode : String → Option α)
    (frameLayers : String → Option String) (layers : List Layer) :
    compositeLayerDraws decode frameLayers layers
      = layers.filterMap fun layer =>
          if layer.isVisible then
            (frameLayers layer.id).bind fun url =>
              (decode url).map fun img => (img, layer.opacity, layer.blendMode)
          else none := by
  induction layers with
  | nil => rfl
  | cons layer rest ih =>
    rw [List.filterMap_cons]
    by_cases hv : layer.isVisible
    · cases hurl : frameLayers layer.id with
      | none => simp [compositeLayerDraws, hv, hurl, ih]
      | some url =>
        cases hdec : decode url with
        | none => simp [compositeLayerDraws, hv, hurl, hdec, ih]
        | some img => simp [compositeLayerDraws, hv, hurl, hdec, ih]
    · simp [compositeLayerDraws, hv, ih]

/-! ## Session-level rotation invariant (C10)

Every operation that creates or transforms the floating selection or the
clipboard, as dispatched by App and CanvasArea. -/

/-- `handlePaste` (App): center the clipboard on the canvas; every other
field — including `rotation` — is spread from the clipboard unchanged. -/
def handlePaste (clipboard : SelectionState) (canvasWidth canvasHeight : ℚ) :
    SelectionState :=
  { clipboard with
    x := (canvasWidth - clipboard.width) / 2
    y := (canvasHeight - clipboard.height) / 2 }

/-- The App-owned selection/clipboard pair. -/
structure SessionState where
  selection : Option SelectionState
  clipboard : Option SelectionState
  deriving DecidableEq, Repr

/-- The session operations that touch the floating selection or clipboard:
the three creation paths (`onSelectionCreate` at marquee release, at text
commit, at image import — all with rotation 0 and scales 1), move/resize
(`onSelectionUpdate` of `latestSelectionState`, which spreads the initial
selection and replaces only `x`, `y`, `width`, `height`), rotate and the two
flips, copy (clipboard := selection), paste (selection := centered spread of
the clipboard), and the clearing paths (commit, delete, project load). -/
inductive SessionStep : SessionState → SessionState → Prop
  | marqueeLift (s : SessionState) (x y w h : ℚ) (url : String) :
      SessionStep s ⟨some ⟨x, y, w, h, url, 0, 1, 1⟩, s.clipboard⟩
  | textCommit (s : SessionState) (x y w h : ℚ) (url : String) :
      SessionStep s ⟨some ⟨x, y, w, h, url, 0, 1, 1⟩, s.clipboard⟩
  | importImage (s : SessionState) (x y w h : ℚ) (url : String) :
      SessionStep s ⟨some ⟨x, y, w, h, url, 0, 1, 1⟩, s.clipboard⟩
  | moveResize (s : SessionState) (sel : SelectionState)
      (hsel : s.selection = some sel) (nx ny nw nh : ℚ) :
      SessionStep s
        ⟨some { sel with x := nx, y := ny, width := nw, height := nh },
         s.clipboard⟩
  | rotate (s : SessionState) (sel : SelectionState)
      (hsel : s.selection = some sel) :
      SessionStep s ⟨some (handleRotate sel), s.clipboard⟩
  | flipH (s : SessionState) (sel : SelectionState)
      (hsel : s.selection = some sel) :
      SessionStep s ⟨some (handleFlipHorizontal sel), s.clipboard⟩
  | flipV (s : SessionState) (sel : SelectionState)
      (hsel : s.selection = some sel) :
      SessionStep s ⟨some (handleFlipVertical sel), s.clipboard⟩
  | copy (s : SessionState) (sel : SelectionState)
      (hsel : s.selection = some sel) :
      SessionStep s ⟨s.selection, some sel⟩
  | paste (s : SessionState) (c : SelectionState)
      (hclip : s.clipboard = some c) (cw ch : ℚ) :
      SessionStep s ⟨some (handlePaste c cw ch), s.clipboard⟩
  | clearSelection (s : SessionState) :
      SessionStep s ⟨none, s.clipboard⟩

/-- A rotation produced by the editor: one of the four quarter turns. -/
def quarterRotation (q : ℚ) : Prop :=
  q = 0 ∨ q = 90 ∨ q = 180 ∨ q = 270

/-- `handleRotate` keeps rotations in the quarter-turn set. -/
theorem quarterRotation_jsMod (r : ℚ) (h : quarterRotation r) :
    quarterRotation (jsMod (r + 90) 360) := by
  rcases h with h | h | h | h <;> subst h
  · refine Or.inr (Or.inl ?_)
    rw [jsMod_of_lt _ _ (by norm_num) (by norm_num) (by norm_num)]
    norm_num
  · refine Or.inr (Or.inr (Or.inl ?_))
    rw [jsMod_of_lt _ _ (by norm_num) (by norm_num) (by norm_num)]
    norm_num
  · refine Or.inr (Or.inr (Or.inr ?_))
    rw [jsMod_of_lt _ _ (by norm_num) (by norm_num) (by norm_num)]
    norm_num
  · refine Or.inl ?_
    rw [jsMod_of_ge _ _ (by norm_num) (by norm_num) (by norm_num)]
    norm_num

/-- C10 counterexample: pasting a clipboard copied from a rotated selection
does not set the pasted selection's rotation to 0 — `handlePaste` spreads
the clipboard, so the rotation stays 90. -/
theorem c10_paste_keeps_rotation_counterexample :
    (handlePaste ⟨0, 0, 20, 20, "s", 90, 1, 1⟩ 800 600).rotation = 90 ∧
    ((90 : ℚ) ≠ 0) :=
  ⟨rfl, by norm_num⟩

/-- C10 (amended): in every reachable session state, the rotation of the
floating selection and of the clipboard (when present) is one of exactly 0,
90, 180 or 270 degrees: the marquee, text and import creation paths set
rotation to 0, move/resize, the flips, copy and paste preserve it, and
rotate adds 90 modulo 360, which keeps the set closed — even though paste
preserves (rather than resets) the copied rotation and the data model
permits arbitrary angles. -/
theorem c10_reachable_rotation_quarter_turns (s : SessionState)
    (hreach : Relation.ReflTransGen SessionStep ⟨none, none⟩ s) :
    (∀ sel, s.selection = some sel → quarterRotation sel.rotation) ∧
    (∀ sel, s.clipboard = some sel → quarterRotation sel.rotation) := by
  induction hreach with
  | refl =>
    exact ⟨fun _ h => by simp at h, fun _ h => by simp at h⟩
  | tail _ step ih =>
    cases step with
    | marqueeLift x y w h url =>
      refine ⟨fun sel hs => ?_, ih.2⟩
      cases hs
      exact Or.inl rfl
    | textCommit x y w h url =>
      refine ⟨fun sel hs => ?_, ih.2⟩
      cases hs
      exact Or.inl rfl
    | importImage x y w h url =>
      refine ⟨fun sel hs => ?_, ih.2⟩
      cases hs
      exact Or.inl rfl
    | moveResize sel0 hsel nx ny nw nh =>
      refine ⟨fun sel hs => ?_, ih.2⟩
      cases hs
      exact ih.1 sel0 hsel
    | rotate sel0 hsel =>
      refine ⟨fun sel hs => ?_, ih.2⟩
      cases hs
      exact quarterRotation_jsMod _ (ih.1 sel0 hsel)
    | flipH sel0 hsel =>
      refine ⟨fun sel hs => ?_, ih.2⟩
      cases hs
      exact ih.1 sel0 hsel
    | flipV sel0 hsel =>
      refine ⟨fun sel hs => ?_, ih.2⟩
      cases hs
      exact ih.1 sel0 hsel
    | copy sel0 hsel =>
      refine ⟨ih.1, fun sel hs => ?_⟩
      cases hs
      exact ih.1 sel0 hsel
    | paste c hclip cw ch =>
      refine ⟨fun sel hs => ?_, ih.2⟩
      cases hs
      exact ih.2 c hclip
    | clearSelection =>
      exact ⟨fun _ hs => by simp at hs, ih.2⟩

/-- Witness for C10 (amended): a marquee-lifted selection, then rotated
once, has a quarter-turn rotation. -/
theorem c10_reachable_rotation_quarter_turns_witness :
    quarterRotation (handleRotate ⟨1, 2, 30, 40, "m", 0, 1, 1⟩).rotation :=
  (c10_reachable_rotation_quarter_turns
    ⟨some (handleRotate ⟨1, 2, 30, 40, "m", 0, 1, 1⟩), none⟩
    ((Relation.ReflTransGen.single
        (SessionStep.marqueeLift ⟨none, none⟩ 1 2 30 40 "m")).tail
      (SessionStep.rotate ⟨some ⟨1, 2, 30, 40, "m", 0, 1, 1⟩, none⟩
        ⟨1, 2, 30, 40, "m", 0, 1, 1⟩ rfl))).1
    (handleRotate ⟨1, 2, 30, 40, "m", 0, 1, 1⟩) rfl

end ClipAnim
